import Mathlib

/-
Shallow embedding of the discord episode-announcement bot (src/main.py).

The embedding covers the core decision logic: startup configuration
parsing, announcement deduplication, weekly recurring-job scheduling,
the watch-list store, the confirmed add-watch flow, and the
spec-described title matcher.  Python strings are Lean `String`s,
Python `None` is `Option.none`, the global mutable set
`announced_episodes` and the list `WATCH_LIST` are threaded explicitly
as state, and the APScheduler job registry is an association list from
job id to job, with `replace_existing=True` semantics.
-/

namespace DiscordBot

/- ### Startup configuration (src/main.py lines 20-34) -/

/-- Models `_env_required` (src/main.py lines 20-24): the environment
value is a parameter (`none` when the variable is unset).  Python
`if not val` treats both `None` and the empty string as missing. -/
def env_required (name : String) (val : Option String) : Except String String :=
  match val with
  | none => Except.error ("Missing required environment variable: " ++ name)
  | some v =>
    if v = "" then Except.error ("Missing required environment variable: " ++ name)
    else Except.ok v

/-- Python whitespace characters stripped by `int()` (ASCII model). -/
def isPyWs (c : Char) : Bool :=
  c == ' ' || c == '\t' || c == '\n' || c == '\r' || c == '\x0b' || c == '\x0c'

/-- Strip leading and trailing whitespace from a character list. -/
def stripChars (l : List Char) : List Char :=
  ((l.dropWhile isPyWs).reverse.dropWhile isPyWs).reverse

/-- Numeric value of an ASCII digit character. -/
def digitVal (c : Char) : Nat := c.toNat - 48

/-- Digits of a Python integer literal after the first digit: single
underscores are permitted between digits, never doubled, leading or
trailing. -/
def pyDigitsAux : List Char → Nat → Option Nat
  | [], acc => some acc
  | '_' :: c :: rest, acc =>
    if c.isDigit then pyDigitsAux rest (acc * 10 + digitVal c) else none
  | ['_'], _ => none
  | c :: rest, acc =>
    if c.isDigit then pyDigitsAux rest (acc * 10 + digitVal c) else none

/-- Parse a nonempty digit group (with interior underscores). -/
def pyParseDigits : List Char → Option Nat
  | [] => none
  | c :: rest => if c.isDigit then pyDigitsAux rest (digitVal c) else none

/-- Models Python `int(raw)` on an ASCII string: strip whitespace, an
optional sign, then decimal digits with optional interior underscores;
`none` when `int` would raise `ValueError`. -/
def pythonInt (s : String) : Option Int :=
  match stripChars s.toList with
  | '+' :: rest => (pyParseDigits rest).map Int.ofNat
  | '-' :: rest => (pyParseDigits rest).map (fun n => -(n : Int))
  | l => (pyParseDigits l).map Int.ofNat

/-- Models `_env_int_required` (src/main.py lines 26-31): requires the
variable to be present and its value to parse as a Python integer. -/
def env_int_required (name : String) (val : Option String) : Except String Int :=
  match env_required name val with
  | Except.error e => Except.error e
  | Except.ok raw =>
    match pythonInt raw with
    | some i => Except.ok i
    | none =>
      Except.error ("Environment variable " ++ name ++ " must be an integer, got: " ++ raw)

/-- Startup configuration resolved before any core component is built
(src/main.py lines 33-34 precede the watch list, dedup set, scheduler
and bot objects of lines 35-47). -/
structure Config where
  botToken : String
  channelId : Int
deriving DecidableEq

/-- Models module-level startup: `BOT_TOKEN = _env_required("BOT_TOKEN")`
then `CHANNEL_ID = _env_int_required("CHANNEL_ID")`; the first raised
error aborts startup. -/
def startup (botTokenEnv channelIdEnv : Option String) : Except String Config :=
  match env_required "BOT_TOKEN" botTokenEnv with
  | Except.error e => Except.error e
  | Except.ok tok =>
    match env_int_required "CHANNEL_ID" channelIdEnv with
    | Except.error e => Except.error e
    | Except.ok cid => Except.ok ⟨tok, cid⟩

/- ### Announcement deduplication (src/main.py lines 185-195) -/

/-- Dedup key `f"{title}-{episode}"` built in `check_and_announce_episode`. -/
def announceKey (title : String) (episode : Nat) : String :=
  title ++ "-" ++ toString episode

/-- Observable outcome of one `check_and_announce_episode` invocation:
the channel lookup failed, the message was sent, the send was attempted
but the delivery was rejected by the provider, or the key was already
announced and nothing was sent. -/
inductive NotifyOutcome where
  | noChannel
  | delivered
  | deliveryFailed
  | skipped
deriving DecidableEq

/-- Models `check_and_announce_episode` (src/main.py lines 185-195).
State is the `announced_episodes` set as a list of keys.  `channelOk`
models whether `bot.get_channel(CHANNEL_ID)` resolves; `sendOk` models
whether `channel.send` delivers.  The key is recorded in the set before
the send is attempted, so a rejected send still leaves the key claimed. -/
def check_and_announce_episode (st : List String) (channelOk sendOk : Bool)
    (title : String) (episode : Nat) : List String × NotifyOutcome :=
  if channelOk = false then (st, NotifyOutcome.noChannel)
  else
    let key := announceKey title episode
    if key ∈ st then (st, NotifyOutcome.skipped)
    else (key :: st, if sendOk then NotifyOutcome.delivered else NotifyOutcome.deliveryFailed)

/-- One notify invocation: its environment conditions and arguments. -/
structure NotifyCall where
  channelOk : Bool
  sendOk : Bool
  title : String
  episode : Nat

/-- Dedup key of a notify invocation. -/
def callKey (c : NotifyCall) : String := announceKey c.title c.episode

/-- Run a sequence of notify invocations against the dedup state,
returning the final state and the outcome of every invocation. -/
def runNotifies (st : List String) : List NotifyCall → List String × List NotifyOutcome
  | [] => (st, [])
  | c :: cs =>
    let r := check_and_announce_episode st c.channelOk c.sendOk c.title c.episode
    let rest := runNotifies r.1 cs
    (rest.1, r.2 :: rest.2)

/-- An outcome in which `channel.send` was invoked. -/
def isSendAttempt : NotifyOutcome → Bool
  | NotifyOutcome.delivered => true
  | NotifyOutcome.deliveryFailed => true
  | _ => false

/-- Number of invocations for key `k` whose outcome invoked the send. -/
def attemptsFor (k : String) (calls : List NotifyCall) (outs : List NotifyOutcome) : Nat :=
  ((calls.zip outs).filter (fun p => callKey p.1 == k && isSendAttempt p.2)).length

/-- Number of invocations for key `k` whose message was delivered. -/
def deliveredFor (k : String) (calls : List NotifyCall) (outs : List NotifyOutcome) : Nat :=
  ((calls.zip outs).filter
    (fun p => callKey p.1 == k && (p.2 == NotifyOutcome.delivered))).length

/- ### Weekly recurring scheduler (src/main.py lines 197-214) -/

/-- Weekly cron slot extracted from the airing datetime: `dt.weekday()`
(0 = Monday), `dt.hour`, `dt.minute`. -/
structure CronSlot where
  dayOfWeek : Nat
  hour : Nat
  minute : Nat
deriving DecidableEq

/-- One registered APScheduler job: its weekly trigger and the
`args=[title, episode]` fixed when the job was added. -/
structure Job where
  trigger : CronSlot
  title : String
  episode : Nat
deriving DecidableEq

/-- APScheduler job registry: association list from job id to job. -/
abbrev SchedState := List (String × Job)

/-- Models `scheduler.add_job(..., id=jobId, replace_existing=True)`:
any existing job with the same id is replaced by the new one. -/
def add_job (s : SchedState) (jobId : String) (j : Job) : SchedState :=
  (s.filter (fun p => !(p.1 == jobId))) ++ [(jobId, j)]

/-- Look up the job registered under an id. -/
def lookupJob (s : SchedState) (jobId : String) : Option Job :=
  (s.find? (fun p => p.1 == jobId)).map Prod.snd

/-- Local calendar seconds of a unix timestamp:
`datetime.datetime.fromtimestamp` applies the local utc
offset (in seconds, a parameter here) to the epoch timestamp.  The
model covers timestamps whose local time is at or after the epoch. -/
def localSecs (tzOffset : Int) (ts : Nat) : Nat := ((ts : Int) + tzOffset).toNat

/-- Python `dt.weekday()` of a local epoch-second count: day 0 of the
epoch (1970-01-01) is a Thursday, weekday number 3 (Monday = 0). -/
def weekdayOf (secs : Nat) : Nat := (secs / 86400 + 3) % 7

/-- Hour of day of a local epoch-second count. -/
def hourOf (secs : Nat) : Nat := secs % 86400 / 3600

/-- Minute of hour of a local epoch-second count. -/
def minuteOf (secs : Nat) : Nat := secs % 3600 / 60

/-- Weekly slot of the local conversion of a unix timestamp. -/
def cronSlotOf (tzOffset : Int) (ts : Nat) : CronSlot :=
  ⟨weekdayOf (localSecs tzOffset ts), hourOf (localSecs tzOffset ts),
   minuteOf (localSecs tzOffset ts)⟩

/-- Models `schedule_episode_from_watchlist` (src/main.py lines
197-214): converts `airing_at` to local time, registers a weekly cron
job under id `f"{title}-weekly"` with `replace_existing=True`, with
`args=[title, episode]` fixed at schedule time. -/
def schedule_episode_from_watchlist (tzOffset : Int) (s : SchedState)
    (title : String) (airing_at : Nat) (episode : Nat) : SchedState :=
  add_job s (title ++ "-weekly") ⟨cronSlotOf tzOffset airing_at, title, episode⟩

/-- One firing of a registered job: APScheduler calls
`check_and_announce_episode` with the stored `args=[title, episode]`. -/
def fire_job (j : Job) (st : List String) (channelOk sendOk : Bool) :
    List String × NotifyOutcome :=
  check_and_announce_episode st channelOk sendOk j.title j.episode

/- ### Watch list and the add-watch flow (src/main.py lines 300-359) -/

/-- Python `a or b` where `a` is an optional string: `a` when it is
truthy (present and nonempty), else `b`. -/
def pyOrOpt (a : Option String) (b : String) : String :=
  match a with
  | some s => if s = "" then b else s
  | none => b

/-- Title resolution `en or ro or title` (src/main.py line 339):
the english title when nonempty, else the romaji title when nonempty,
else the raw user input. -/
def resolveTitle (en ro : Option String) (raw : String) : String :=
  pyOrOpt en (pyOrOpt ro raw)

/-- Models the store update of `add_watch` (src/main.py lines 340-343):
`if chosen not in WATCH_LIST: WATCH_LIST.append(chosen)`; returns the
new list and the `added` flag.  Membership is verbatim string equality. -/
def add_watch_store (store : List String) (chosen : String) : List String × Bool :=
  if chosen ∈ store then (store, false) else (store ++ [chosen], true)

/-- Run a sequence of store insertions from a starting store. -/
def runAdds (store : List String) : List String → List String
  | [] => store
  | c :: cs => runAdds (add_watch_store store c).1 cs

/-- Title variants of an AniList media record (`title.english`,
`title.romaji`); either may be absent. -/
structure MediaTitle where
  english : Option String
  romaji : Option String
deriving DecidableEq

/-- The `nextAiringEpisode` record: airing timestamp and episode
number, either of which the provider may omit. -/
structure NextAiring where
  airingAt : Option Nat
  episode : Option Nat
deriving DecidableEq

/-- A candidate media record as consumed by the add-watch flow. -/
structure MediaItem where
  title : Option MediaTitle
  nextAiringEpisode : Option NextAiring
deriving DecidableEq

/-- The core state the add-watch flow may mutate: the watch list and
the scheduler job registry. -/
structure CoreState where
  watchList : List String
  jobs : SchedState
deriving DecidableEq

/-- The `AnimePager` view is constructed with `timeout=60` seconds
(src/main.py line 218). -/
def animePagerTimeoutSeconds : Nat := 60

/-- Models the core effect of the `add_watch` command handler
(src/main.py lines 300-359) after the selection UI resolves.
`selected = none` models both cancellation and the idle timeout
(`view.selected is None`): the handler returns before touching the
watch list or the scheduler.  On a confirmed item the resolved title is
appended when absent, and a weekly job is scheduled exactly when both
`airingAt` and `episode` are present, regardless of the `added` flag. -/
def add_watch (tzOffset : Int) (st : CoreState) (selected : Option MediaItem)
    (rawTitle : String) : CoreState × Bool :=
  match selected with
  | none => (st, false)
  | some item =>
    let en := item.title.bind MediaTitle.english
    let ro := item.title.bind MediaTitle.romaji
    let displayTitle := resolveTitle en ro rawTitle
    let chosen := resolveTitle en ro rawTitle
    let r := add_watch_store st.watchList chosen
    let airingAt := item.nextAiringEpisode.bind NextAiring.airingAt
    let episode := item.nextAiringEpisode.bind NextAiring.episode
    let jobs :=
      match airingAt, episode with
      | some t, some e => schedule_episode_from_watchlist tzOffset st.jobs displayTitle t e
      | _, _ => st.jobs
    (⟨r.1, jobs⟩, r.2)

/- ### Title matcher (spec section 4.1) -/

/-- ASCII case folding on a character code. -/
def foldCode (n : Nat) : Nat := if 65 ≤ n ∧ n ≤ 90 then n + 32 else n

/-- Case-folded character codes of a string. -/
def lowerCodes (s : String) : List Nat := s.toList.map (fun c => foldCode c.toNat)

/-- Whitespace character codes trimmed during normalization. -/
def isWsCode (n : Nat) : Bool :=
  n == 32 || n == 9 || n == 10 || n == 13 || n == 11 || n == 12

/-- Strip leading and trailing whitespace codes. -/
def stripCodes (l : List Nat) : List Nat :=
  ((l.dropWhile isWsCode).reverse.dropWhile isWsCode).reverse

/-- Normalized (trimmed, case-folded) form of a watch entry. -/
def normalizeEntry (e : String) : List Nat := stripCodes (lowerCodes e)

/-- Modelled from the spec: `TitleMatcher.matches` (spec section 4.1) has
no implementation under src/ (only the add-watch path is present in
src/main.py; the polling path that would use the matcher is absent).
A watch entry matches when it is not the empty string and its
normalized (trimmed, case-folded) form is a substring of the
case-folded primary or alternate variant. -/
def title_matches (watchEntries : List String) (primary alternate : String) : Bool :=
  watchEntries.any (fun e =>
    !(e == "") &&
      (decide (normalizeEntry e <:+: lowerCodes primary) ||
       decide (normalizeEntry e <:+: lowerCodes alternate)))

/- ### Helper lemmas -/

/-- Filtering an `add_job` result for the added id yields exactly the
new pair: any previously registered job under that id was removed. -/
theorem filter_add_job (s : SchedState) (jobId : String) (j : Job) :
    (add_job s jobId j).filter (fun p => p.1 == jobId) = [(jobId, j)] := by
  unfold add_job
  rw [List.filter_append]
  have h1 : (s.filter (fun p => !(p.1 == jobId))).filter (fun p => p.1 == jobId) = [] := by
    induction s with
    | nil => rfl
    | cons p l ih =>
      by_cases hp : p.1 == jobId
      · simp [List.filter_cons, hp, ih]
      · simp [List.filter_cons, hp, ih]
  simp [h1, List.filter_cons]

/-- Looking up the id just added returns the new job. -/
theorem lookupJob_add_job (s : SchedState) (jobId : String) (j : Job) :
    lookupJob (add_job s jobId j) jobId = some j := by
  unfold lookupJob add_job
  induction s with
  | nil => simp [List.find?]
  | cons p l ih =>
    by_cases hp : p.1 == jobId
    · simp [List.filter_cons, hp, ih]
    · simp [List.filter_cons, hp, List.find?_cons, ih]

/-- Unfolding one step of `runNotifies`. -/
theorem runNotifies_cons (st : List String) (c : NotifyCall) (cs : List NotifyCall) :
    runNotifies st (c :: cs) =
      ((runNotifies
          (check_and_announce_episode st c.channelOk c.sendOk c.title c.episode).1 cs).1,
       (check_and_announce_episode st c.channelOk c.sendOk c.title c.episode).2 ::
         (runNotifies
           (check_and_announce_episode st c.channelOk c.sendOk c.title c.episode).1 cs).2) :=
  rfl

/-- Characterization of one notify invocation: the send is attempted
exactly when the channel resolves and the key is unclaimed, and the
key is recorded exactly in that case. -/
theorem check_attempt_char (st : List String) (ch so : Bool) (t : String) (e : Nat) :
    (isSendAttempt (check_and_announce_episode st ch so t e).2 = true ↔
      (ch = true ∧ announceKey t e ∉ st)) ∧
    ((check_and_announce_episode st ch so t e).1 =
      if ch = true ∧ announceKey t e ∉ st then announceKey t e :: st else st) := by
  cases ch
  · simp [check_and_announce_episode, isSendAttempt]
  · by_cases hm : announceKey t e ∈ st
    · simp [check_and_announce_episode, hm, isSendAttempt]
    · cases so <;> simp [check_and_announce_episode, hm, isSendAttempt]

/-- The dedup set only grows across an invocation. -/
theorem mem_check_state (st : List String) (ch so : Bool) (t : String) (e : Nat)
    (k : String) (h : k ∈ st) : k ∈ (check_and_announce_episode st ch so t e).1 := by
  rw [(check_attempt_char st ch so t e).2]
  by_cases hc : ch = true ∧ announceKey t e ∉ st
  · simp [hc, List.mem_cons, h]
  · simp [hc, h]

/-- The dedup set only grows across a run of invocations. -/
theorem runNotifies_mono (cs : List NotifyCall) :
    ∀ st k, k ∈ st → k ∈ (runNotifies st cs).1 := by
  induction cs with
  | nil => intro st k h; exact h
  | cons c cs ih =>
    intro st k h
    rw [runNotifies_cons]
    exact ih _ _ (mem_check_state _ _ _ _ _ _ h)

/-- Unfolding one step of the attempt counter. -/
theorem attemptsFor_cons (k : String) (c : NotifyCall) (cs : List NotifyCall)
    (o : NotifyOutcome) (os : List NotifyOutcome) :
    attemptsFor k (c :: cs) (o :: os) =
      cond (callKey c == k && isSendAttempt o) 1 0 + attemptsFor k cs os := by
  unfold attemptsFor
  rw [List.zip_cons_cons, List.filter_cons]
  cases h : (callKey c == k && isSendAttempt o) <;> simp [h, Nat.add_comm]

/-- Unfolding one step of the delivered counter. -/
theorem deliveredFor_cons (k : String) (c : NotifyCall) (cs : List NotifyCall)
    (o : NotifyOutcome) (os : List NotifyOutcome) :
    deliveredFor k (c :: cs) (o :: os) =
      cond (callKey c == k && (o == NotifyOutcome.delivered)) 1 0 +
        deliveredFor k cs os := by
  unfold deliveredFor
  rw [List.zip_cons_cons, List.filter_cons]
  cases h : (callKey c == k && (o == NotifyOutcome.delivered)) <;> simp [h, Nat.add_comm]

/-- Once a key is in the dedup set, a run makes no send attempt for it. -/
theorem attempts_zero_of_mem (cs : List NotifyCall) :
    ∀ st k, k ∈ st → attemptsFor k cs (runNotifies st cs).2 = 0 := by
  induction cs with
  | nil => intro st k _; rfl
  | cons c cs ih =>
    intro st k h
    rw [runNotifies_cons, attemptsFor_cons,
      ih _ _ (mem_check_state st c.channelOk c.sendOk c.title c.episode k h)]
    by_cases hk : callKey c = k
    · have hkey : announceKey c.title c.episode ∈ st := by
        rw [show announceKey c.title c.episode = callKey c from rfl, hk]; exact h
      have hatt :
          isSendAttempt
            (check_and_announce_episode st c.channelOk c.sendOk c.title c.episode).2
            = false := by
        rcases hb :
            isSendAttempt
              (check_and_announce_episode st c.channelOk c.sendOk c.title c.episode).2 with
          _ | _
        · rfl
        · exact absurd hkey
            ((check_attempt_char st c.channelOk c.sendOk c.title c.episode).1.mp hb).2
      simp [hatt]
    · simp [beq_eq_false_iff_ne.mpr hk]

/-- Any run makes at most one send attempt per key. -/
theorem attempts_le_one (cs : List NotifyCall) :
    ∀ st k, attemptsFor k cs (runNotifies st cs).2 ≤ 1 := by
  induction cs with
  | nil => intro st k; exact Nat.zero_le 1
  | cons c cs ih =>
    intro st k
    rw [runNotifies_cons, attemptsFor_cons]
    by_cases hk : callKey c = k
    · rcases hatt :
          isSendAttempt
            (check_and_announce_episode st c.channelOk c.sendOk c.title c.episode).2 with
        _ | _
      · simpa [hatt] using
          ih (check_and_announce_episode st c.channelOk c.sendOk c.title c.episode).1 k
      · have hcond :=
          (check_attempt_char st c.channelOk c.sendOk c.title c.episode).1.mp hatt
        have hstate :
            (check_and_announce_episode st c.channelOk c.sendOk c.title c.episode).1 =
              announceKey c.title c.episode :: st := by
          rw [(check_attempt_char st c.channelOk c.sendOk c.title c.episode).2]
          simp [hcond.1, hcond.2]
        have hmem :
            k ∈ (check_and_announce_episode st c.channelOk c.sendOk c.title c.episode).1 := by
          rw [hstate, ← hk]
          exact List.mem_cons_self _ _
        rw [attempts_zero_of_mem cs _ k hmem]
        simp [hk, hatt]
    · simpa [beq_eq_false_iff_ne.mpr hk] using
        ih (check_and_announce_episode st c.channelOk c.sendOk c.title c.episode).1 k

/-- A delivered notification for a key leaves it in the final dedup set. -/
theorem mem_final_of_delivered (cs : List NotifyCall) :
    ∀ st k, 0 < deliveredFor k cs (runNotifies st cs).2 → k ∈ (runNotifies st cs).1 := by
  induction cs with
  | nil =>
    intro st k h
    exact absurd h (by simp [deliveredFor, runNotifies])
  | cons c cs ih =>
    intro st k h
    rw [runNotifies_cons] at h ⊢
    rw [deliveredFor_cons] at h
    rcases hd :
        ((check_and_announce_episode st c.channelOk c.sendOk c.title c.episode).2 ==
          NotifyOutcome.delivered) with _ | _
    · rw [hd] at h
      simp only [Bool.and_false, cond_false, Nat.zero_add] at h
      exact ih _ _ h
    · by_cases hk : callKey c = k
      · have hdel :
            (check_and_announce_episode st c.channelOk c.sendOk c.title c.episode).2 =
              NotifyOutcome.delivered := eq_of_beq hd
        have hatt :
            isSendAttempt
              (check_and_announce_episode st c.channelOk c.sendOk c.title c.episode).2
              = true := by rw [hdel]; rfl
        have hcond :=
          (check_attempt_char st c.channelOk c.sendOk c.title c.episode).1.mp hatt
        have hstate :
            (check_and_announce_episode st c.channelOk c.sendOk c.title c.episode).1 =
              announceKey c.title c.episode :: st := by
          rw [(check_attempt_char st c.channelOk c.sendOk c.title c.episode).2]
          simp [hcond.1, hcond.2]
        apply runNotifies_mono
        rw [hstate, ← hk]
        exact List.mem_cons_self _ _
      · have hbk : (callKey c == k) = false := by
          exact beq_eq_false_iff_ne.mpr hk
        rw [hbk] at h
        simp only [Bool.false_and, cond_false, Nat.zero_add] at h
        exact ih _ _ h

/- ### Claim theorems -/

/-- C2: scheduling the same title twice replaces rather than
duplicates — after `schedule(title, t1, e1)` then
`schedule(title, t2, e2)`, exactly one job is registered under that
job id of that title, its trigger is derived from `t2` and its episode is
`e2`; the job from the first call is discarded. -/
theorem schedule_twice_replaces (tzOffset : Int) (s : SchedState) (title : String)
    (t1 e1 t2 e2 : Nat) :
    ((schedule_episode_from_watchlist tzOffset
        (schedule_episode_from_watchlist tzOffset s title t1 e1) title t2 e2).filter
      (fun p => p.1 == title ++ "-weekly")) =
      [(title ++ "-weekly", (⟨cronSlotOf tzOffset t2, title, e2⟩ : Job))] := by
  unfold schedule_episode_from_watchlist
  exact filter_add_job _ _ _

/-- C3: the job created by `schedule(title, t, e)` has the weekly slot
given by the weekday, hour and minute of the local-calendar conversion
of `t`, and every firing of that job invokes the notify path with the
pair `(title, e)` fixed at schedule time — the episode number is never
changed by a firing. -/
theorem schedule_slot_and_fixed_args (tzOffset : Int) (s : SchedState) (title : String)
    (t e : Nat) :
    lookupJob (schedule_episode_from_watchlist tzOffset s title t e) (title ++ "-weekly") =
      some ⟨⟨weekdayOf (localSecs tzOffset t), hourOf (localSecs tzOffset t),
             minuteOf (localSecs tzOffset t)⟩, title, e⟩ ∧
    (∀ st channelOk sendOk,
      fire_job ⟨cronSlotOf tzOffset t, title, e⟩ st channelOk sendOk =
        check_and_announce_episode st channelOk sendOk title e) := by
  constructor
  · unfold schedule_episode_from_watchlist cronSlotOf
    exact lookupJob_add_job _ _ _
  · intro st channelOk sendOk
    rfl

/-- C5: adding an already-present title returns `added = false` and
leaves the store unchanged, and any sequence of adds starting from the
empty initial watch list leaves the store duplicate-free. -/
theorem add_watch_store_idempotent_nodup (store : List String) (chosen : String)
    (h : chosen ∈ store) :
    add_watch_store store chosen = (store, false) ∧
    ∀ adds : List String, (runAdds [] adds).Nodup := by
  refine ⟨by simp [add_watch_store, h], ?_⟩
  have key : ∀ adds store, List.Nodup store → List.Nodup (runAdds store adds) := by
    intro adds
    induction adds with
    | nil => intro store hs; exact hs
    | cons c cs ih =>
      intro store hs
      unfold runAdds
      apply ih
      by_cases hc : c ∈ store
      · simpa [add_watch_store, hc] using hs
      · simp [add_watch_store, hc, List.nodup_append, hs]
  intro adds
  exact key adds [] List.nodup_nil

/-- C5 witness. -/
theorem add_watch_store_idempotent_nodup_witness :
    add_watch_store ["A"] "A" = (["A"], false) ∧
    ∀ adds : List String, (runAdds [] adds).Nodup :=
  add_watch_store_idempotent_nodup ["A"] "A" (by decide)

/-- C6: the stored title is the primary (english) title when nonempty,
else the alternate (romaji) title when nonempty, else the raw input;
the already-exists decision of the store is verbatim string
membership. -/
theorem resolve_title_order (en ro : Option String) (raw : String) (store : List String) :
    (∀ s, en = some s → s ≠ "" → resolveTitle en ro raw = s) ∧
    ((en = none ∨ en = some "") →
      ∀ r, ro = some r → r ≠ "" → resolveTitle en ro raw = r) ∧
    ((en = none ∨ en = some "") → (ro = none ∨ ro = some "") →
      resolveTitle en ro raw = raw) ∧
    ((add_watch_store store (resolveTitle en ro raw)).2 = true ↔
      resolveTitle en ro raw ∉ store) := by
  refine ⟨?_, ?_, ?_, ?_⟩
  · intro s hs hne
    subst hs
    simp [resolveTitle, pyOrOpt, hne]
  · intro hen r hr hrne
    subst hr
    rcases hen with hen | hen <;> subst hen <;> simp [resolveTitle, pyOrOpt, hrne]
  · intro hen hro
    rcases hen with hen | hen <;> rcases hro with hro | hro <;>
      subst hen <;> subst hro <;> simp [resolveTitle, pyOrOpt]
  · by_cases hm : resolveTitle en ro raw ∈ store <;> simp [add_watch_store, hm]

/-- C6 witness. -/
theorem resolve_title_order_witness :
    resolveTitle (some "A") (some "b") "c" = "A" ∧
    ((add_watch_store ["x"] (resolveTitle (some "A") (some "b") "c")).2 = true ↔
      resolveTitle (some "A") (some "b") "c" ∉ ["x"]) :=
  ⟨(resolve_title_order (some "A") (some "b") "c" ["x"]).1 "A" rfl (by decide),
   (resolve_title_order (some "A") (some "b") "c" ["x"]).2.2.2⟩

/-- C8: an add-watch interaction that ends in cancellation or in the
fixed 60-second idle timeout (`view.selected is None`) leaves the
watch list and the job registry exactly as they were. -/
theorem cancel_timeout_no_mutation (tzOffset : Int) (st : CoreState) (raw : String) :
    add_watch tzOffset st none raw = (st, false) ∧ animePagerTimeoutSeconds = 60 :=
  ⟨rfl, rfl⟩

/-- C10: in the confirmed add-watch flow a weekly job is scheduled
exactly when the selected candidate carries both a next-airing
timestamp and a next-episode number, and the scheduling decision does
not depend on the watch list contents (re-adding an existing title
still replaces its weekly job). -/
theorem schedule_iff_airing_info (tzOffset : Int) (st : CoreState) (item : MediaItem)
    (raw : String) :
    (∀ t e, item.nextAiringEpisode.bind NextAiring.airingAt = some t →
        item.nextAiringEpisode.bind NextAiring.episode = some e →
        (add_watch tzOffset st (some item) raw).1.jobs =
          schedule_episode_from_watchlist tzOffset st.jobs
            (resolveTitle (item.title.bind MediaTitle.english)
              (item.title.bind MediaTitle.romaji) raw) t e) ∧
    ((item.nextAiringEpisode.bind NextAiring.airingAt = none ∨
      item.nextAiringEpisode.bind NextAiring.episode = none) →
        (add_watch tzOffset st (some item) raw).1.jobs = st.jobs) ∧
    (∀ wl1 wl2 : List String,
      (add_watch tzOffset ⟨wl1, st.jobs⟩ (some item) raw).1.jobs =
      (add_watch tzOffset ⟨wl2, st.jobs⟩ (some item) raw).1.jobs) := by
  refine ⟨?_, ?_, ?_⟩
  · intro t e ht he
    simp [add_watch, ht, he]
  · intro h
    rcases h with h | h
    · simp [add_watch, h]
    · rcases ha : item.nextAiringEpisode.bind NextAiring.airingAt with _ | t <;>
        simp [add_watch, ha, h]
  · intro wl1 wl2
    rcases ha : item.nextAiringEpisode.bind NextAiring.airingAt with _ | t <;>
      rcases he : item.nextAiringEpisode.bind NextAiring.episode with _ | e <;>
        simp [add_watch, ha, he]

/-- C10 witness. -/
theorem schedule_iff_airing_info_witness :
    (add_watch 0 ⟨[], []⟩
        (some ⟨some ⟨some "A", none⟩, some ⟨some 1000, some 5⟩⟩) "r").1.jobs =
      schedule_episode_from_watchlist 0 ([] : SchedState)
        (resolveTitle ((some (⟨some "A", none⟩ : MediaTitle)).bind MediaTitle.english)
          ((some (⟨some "A", none⟩ : MediaTitle)).bind MediaTitle.romaji) "r") 1000 5 :=
  (schedule_iff_airing_info 0 ⟨[], []⟩
    ⟨some ⟨some "A", none⟩, some ⟨some 1000, some 5⟩⟩ "r").1 1000 5 rfl rfl

/-- C9: startup succeeds exactly when the token value is present and
nonempty and the channel value is present and parses as a Python
integer; a missing or empty token is a fatal descriptive error, and
with both values well-formed startup yields the parsed configuration. -/
theorem config_errors_fatal (tokEnv chEnv : Option String) :
    ((∃ cfg, startup tokEnv chEnv = Except.ok cfg) ↔
      ((∃ tk, tokEnv = some tk ∧ tk ≠ "") ∧
       (∃ s i, chEnv = some s ∧ pythonInt s = some i))) ∧
    ((tokEnv = none ∨ tokEnv = some "") →
      startup tokEnv chEnv =
        Except.error "Missing required environment variable: BOT_TOKEN") ∧
    (∀ tk s i, tokEnv = some tk → tk ≠ "" → chEnv = some s → pythonInt s = some i →
      startup tokEnv chEnv = Except.ok ⟨tk, i⟩) := by
  refine ⟨?_, ?_, ?_⟩
  · constructor
    · rintro ⟨cfg, hcfg⟩
      rcases tokEnv with _ | tk
      · simp [startup, env_required] at hcfg
      · by_cases htk : tk = ""
        · subst htk
          simp [startup, env_required] at hcfg
        · rcases chEnv with _ | s
          · simp [startup, env_required, env_int_required, htk] at hcfg
          · by_cases hs : s = ""
            · subst hs
              simp [startup, env_required, env_int_required, htk] at hcfg
            · rcases hp : pythonInt s with _ | i
              · simp [startup, env_required, env_int_required, htk, hs, hp] at hcfg
              · exact ⟨⟨tk, rfl, htk⟩, ⟨s, i, rfl, hp⟩⟩
    · rintro ⟨⟨tk, htok, htk⟩, ⟨s, i, hch, hp⟩⟩
      subst htok
      subst hch
      by_cases hs : s = ""
      · subst hs
        simp [pythonInt, stripChars, pyParseDigits] at hp
      · exact ⟨⟨tk, i⟩, by simp [startup, env_required, env_int_required, htk, hs, hp]⟩
  · rintro (h | h) <;> subst h <;> simp [startup, env_required]
  · intro tk s i htok htk hch hp
    subst htok
    subst hch
    by_cases hs : s = ""
    · subst hs
      simp [pythonInt, stripChars, pyParseDigits] at hp
    · simp [startup, env_required, env_int_required, htk, hs, hp]

/-- C9 witness. -/
theorem config_errors_fatal_witness :
    ("t" : String) ≠ "" ∧ pythonInt "123" = some 123 ∧
    startup (some "t") (some "123") = Except.ok ⟨"t", 123⟩ :=
  ⟨by decide, by decide,
   (config_errors_fatal (some "t") (some "123")).2.2 "t" "123" 123 rfl (by decide) rfl
     (by decide)⟩

/-- C1: over any sequence of notify invocations in one process
lifetime, at most one invocation sends a notification for a given
announcement key, and once a key has been successfully delivered every
later invocation with the same key sends nothing. -/
theorem announce_at_most_once (cs1 cs2 : List NotifyCall) (k : String) :
    attemptsFor k (cs1 ++ cs2) (runNotifies [] (cs1 ++ cs2)).2 ≤ 1 ∧
    (0 < deliveredFor k cs1 (runNotifies [] cs1).2 →
      attemptsFor k cs2 (runNotifies (runNotifies [] cs1).1 cs2).2 = 0) := by
  constructor
  · exact attempts_le_one _ _ _
  · intro h
    exact attempts_zero_of_mem _ _ _ (mem_final_of_delivered _ _ _ h)

/-- C1 witness. -/
theorem announce_at_most_once_witness :
    0 < deliveredFor "A-1" [⟨true, true, "A", 1⟩]
        (runNotifies [] [⟨true, true, "A", 1⟩]).2 ∧
    attemptsFor "A-1" [⟨true, true, "A", 1⟩]
        (runNotifies (runNotifies [] [⟨true, true, "A", 1⟩]).1
          [⟨true, true, "A", 1⟩]).2 = 0 :=
  ⟨by decide,
   (announce_at_most_once [⟨true, true, "A", 1⟩] [⟨true, true, "A", 1⟩] "A-1").2
     (by decide)⟩

/-- C7: delivery failure does not roll back deduplication and does not
crash — an unresolvable channel makes the invocation return with the
state untouched, and when the send is attempted but rejected, the key
was already recorded and no later invocation with the same key ever
attempts a send again. -/
theorem delivery_failure_no_rollback (st : List String) (title : String) (episode : Nat)
    (sendOk : Bool) (h : announceKey title episode ∉ st) :
    check_and_announce_episode st false sendOk title episode =
      (st, NotifyOutcome.noChannel) ∧
    (check_and_announce_episode st true false title episode).2 =
      NotifyOutcome.deliveryFailed ∧
    announceKey title episode ∈
      (check_and_announce_episode st true false title episode).1 ∧
    (∀ ch so, isSendAttempt
        (check_and_announce_episode
          (check_and_announce_episode st true false title episode).1
          ch so title episode).2 = false) := by
  refine ⟨rfl, ?_, ?_, ?_⟩
  · simp [check_and_announce_episode, h]
  · simp [check_and_announce_episode, h]
  · intro ch so
    have hmem : announceKey title episode ∈
        (check_and_announce_episode st true false title episode).1 := by
      simp [check_and_announce_episode, h]
    rcases hb : isSendAttempt
        (check_and_announce_episode
          (check_and_announce_episode st true false title episode).1
          ch so title episode).2 with _ | _
    · rfl
    · exact absurd hmem
        ((check_attempt_char _ ch so title episode).1.mp hb).2

/-- C7 witness. -/
theorem delivery_failure_no_rollback_witness :
    announceKey "A" 1 ∉ ([] : List String) ∧
    (check_and_announce_episode [] true false "A" 1).2 =
      NotifyOutcome.deliveryFailed :=
  ⟨by decide, (delivery_failure_no_rollback [] "A" 1 true (by decide)).2.1⟩

/-- C4: the title matcher returns true exactly when the trimmed,
case-folded form of some watch entry is a substring of the case-folded
primary variant or of the case-folded alternate variant; an entry that
is the empty string never matches. -/
theorem title_matches_iff (W : List String) (primary alternate : String) :
    title_matches W primary alternate = true ↔
      ∃ e ∈ W, e ≠ "" ∧
        (normalizeEntry e <:+: lowerCodes primary ∨
         normalizeEntry e <:+: lowerCodes alternate) := by
  simp [title_matches, List.any_eq_true]

end DiscordBot
